import Mathlib

/-! # ThreadBase.h: a shallow embedding

The class `ThreadBase` wraps one POSIX thread.  Its private members become the
fields of a record, every method becomes a function on that record, and the
calls into the operating system (`sleep`, `usleep`, `pthread_cancel`,
`pthread_attr_destroy`, the write to `std::cerr`) are recorded as a list of
events.

Two things live outside the class and are therefore parameters:

* what `pthread_create` answers (its return code and the handle it stores);
* what the worker thread does to `m_ThreadStatus` while a caller sleeps inside
  one of the two polling loops (`Stop`, `WaitThreadReady`).

The polling loops take a fuel argument, the number of loop checks that may be
executed; `none` means that the call has not returned within that many checks.
A call that dies on the way, as `Stop` does inside `pthread_cancel` when the
handle is null, returns for no fuel at all: it is `none` throughout.
-/

namespace ThreadBase

/-! ## Machine integers -/

/-- Two's-complement reduction of an integer to the range of a 32-bit `int`. -/
def wrapInt32 (x : Int) : Int := (x + 2147483648) % 4294967296 - 2147483648

/-- The compound assignment `a -= b` on `int`. -/
def subInt32 (a b : Int) : Int := wrapInt32 (a - b)

/-- Reduction of a natural number to the range of a 32-bit `unsigned int`. -/
def wrapUInt32 (x : Nat) : Nat := x % 4294967296

/-- The range of `int`. -/
def IsInt32 (x : Int) : Prop := -2147483648 ≤ x ∧ x ≤ 2147483647

instance (x : Int) : Decidable (IsInt32 x) := by
  unfold IsInt32; infer_instance

/-! ## Data model -/

/-- Flag value `THREAD_RUN` of `enum THREAD_FLAGS`. -/
def THREAD_RUN : Int := 0
/-- Flag value `THREAD_STOP` of `enum THREAD_FLAGS`. -/
def THREAD_STOP : Int := 1
/-- Flag value `THREAD_PAUSE` of `enum THREAD_FLAGS`. -/
def THREAD_PAUSE : Int := 2

/-- Life cycle of the `pthread_attr_t` object, as driven by `pthread_attr_init`
and `pthread_attr_destroy`. -/
inductive AttrState where
  | initialised
  | destroyed
  deriving DecidableEq, Repr

/-- Calls that leave the class. -/
inductive Event where
  /-- The call `sleep(seconds)`. -/
  | sleep (seconds : Nat)
  /-- The call `usleep(usec)`. -/
  | usleep (usec : Nat)
  /-- The call `pthread_cancel(handle)`. -/
  | cancel (handle : Nat)
  /-- The call `pthread_attr_destroy(&m_ThreadAttribute)`. -/
  | attrDestroy
  /-- The line written to `std::cerr` by a failed `Start` -/
  | cerr
  deriving DecidableEq, Repr

/-- The private members of `ThreadBase`.  `m_ThreadHandle = 0` is the null
handle; `m_ThreadName` is the C string held in the 64-byte buffer. -/
structure State where
  m_ThreadHandle : Nat
  m_ThreadAttribute : AttrState
  m_ThreadName : List Char
  m_ThreadStatus : Int
  m_ThreadControl : Int
  deriving DecidableEq, Repr

/-- A state after a call together with the events the call produced. -/
structure Outcome where
  state : State
  trace : List Event
  deriving DecidableEq, Repr

/-- The worker thread seen from a polling caller: `w k s` is the value of
`m_ThreadStatus` once the caller's sleep number `k` is over, the instance being
in state `s` when that sleep began.  The worker reads the instance and writes
nothing but the status. -/
abbrev Worker := Nat → State → Int

/-- One sleep of the caller: the worker's write to the status is applied. -/
def duringSleep (w : Worker) (k : Nat) (s : State) : State :=
  { s with m_ThreadStatus := w k s }

/-- A worker that never reaches another loop check: the status stays put. -/
def idleWorker : Worker := fun _ s => s.m_ThreadStatus

/-- A worker whose status is seen as `obs k` after sleep `k`. -/
def observed (obs : Nat → Int) : Worker := fun k _ => obs k

/-! ## Methods -/

/-- The constructor `ThreadBase()`. -/
def new : State :=
  { m_ThreadHandle := 0
    m_ThreadAttribute := AttrState.initialised
    m_ThreadName := []
    m_ThreadStatus := THREAD_STOP
    m_ThreadControl := THREAD_STOP }

/-- Method `GetThreadName()`. -/
def GetThreadName (s : State) : List Char := s.m_ThreadName

/-- Method `GetThreadStatus()`. -/
def GetThreadStatus (s : State) : Int := s.m_ThreadStatus

/-- Method `ThreadSleep(milisecond)`, argument of type `unsigned int`. -/
def ThreadSleep (milisecond : Nat) : List Event :=
  if milisecond ≥ 1000 then
    [Event.sleep (milisecond / 1000)]
  else
    [Event.usleep (wrapUInt32 (milisecond * 1000))]

/-- The call of `strcpy` into the 64-byte buffer `m_ThreadName`: the source and its
terminating zero must fit, otherwise the copy runs past the buffer and nothing
is defined. -/
def strcpyName (src : List Char) : Option (List Char) :=
  if src.length + 1 ≤ 64 then some src else none

/-- Method `Start(thread_name)`.  `create = (rc, h)` is the answer of `pthread_create`:
its return code and the handle it stored.  The result is the returned `bool`
with the outcome, or `none` when `strcpy` overruns the buffer. -/
def Start (s : State) (thread_name : List Char) (create : Int × Nat) :
    Option (Bool × Outcome) :=
  let s1 : State :=
    if create.1 ≠ 0 then { s with m_ThreadHandle := 0 }
    else { s with m_ThreadHandle := create.2 }
  if s1.m_ThreadHandle = 0 then
    some (false, { state := s1, trace := [Event.cerr] })
  else
    match strcpyName thread_name with
    | none => none
    | some nm =>
      some (true,
        { state := { s1 with m_ThreadName := nm, m_ThreadControl := THREAD_RUN },
          trace := [] })

/-- The `while` loop of `Stop`.  `k` counts the sleeps done so far, `tr` the
events so far.  `pthread_cancel` reads the thread behind the handle it is
given: on the null handle the process dies inside the call, so nothing is
returned (`none`, whatever the fuel). -/
def StopLoop (w : Worker) : Nat → Nat → State → Int → List Event → Option Outcome
  | 0, _, _, _, _ => none
  | fuel + 1, k, s, iTimeOut, tr =>
    if s.m_ThreadStatus ≠ THREAD_STOP then
      let s1 : State := { s with m_ThreadControl := THREAD_STOP }
      if iTimeOut ≤ 0 then
        if s1.m_ThreadHandle = 0 then none
        else some { state := s1, trace := tr ++ [Event.cancel s1.m_ThreadHandle] }
      else
        StopLoop w fuel (k + 1) (duringSleep w k s1) (subInt32 iTimeOut 100)
          (tr ++ ThreadSleep 100)
    else
      some { state := s, trace := tr }

/-- Method `Stop(iTimeOut)`: the loop, then the attribute object is destroyed and
the handle is set to null. -/
def Stop (fuel : Nat) (w : Worker) (s : State) (iTimeOut : Int) : Option Outcome :=
  match StopLoop w fuel 0 s iTimeOut [] with
  | none => none
  | some o =>
    some { state := { o.state with m_ThreadAttribute := AttrState.destroyed,
                                   m_ThreadHandle := 0 },
           trace := o.trace ++ [Event.attrDestroy] }

/-- Method `Pause()`. -/
def Pause (s : State) : State :=
  if s.m_ThreadStatus = THREAD_RUN then
    { s with m_ThreadControl := THREAD_PAUSE, m_ThreadStatus := THREAD_PAUSE }
  else s

/-- Method `Resume()`. -/
def Resume (s : State) : State :=
  if s.m_ThreadStatus = THREAD_PAUSE then
    { s with m_ThreadControl := THREAD_RUN }
  else s

/-- The `while` loop of `WaitThreadReady`.  `k` counts the sleeps done so far,
`tr` the events so far. -/
def WaitLoop (w : Worker) : Nat → Nat → State → Int → List Event → Option Outcome
  | 0, _, _, _, _ => none
  | fuel + 1, k, s, iTimeOut, tr =>
    if s.m_ThreadStatus ≠ THREAD_RUN then
      let s1 := duringSleep w k s
      let tr1 := tr ++ ThreadSleep 30
      if iTimeOut = 0 then
        WaitLoop w fuel (k + 1) s1 iTimeOut tr1
      else
        let t := subInt32 iTimeOut 30
        if t ≤ 0 then
          some { state := s1, trace := tr1 }
        else
          WaitLoop w fuel (k + 1) s1 t tr1
    else
      some { state := s, trace := tr }

/-- Method `WaitThreadReady(iTimeOut)`. -/
def WaitThreadReady (fuel : Nat) (w : Worker) (s : State) (iTimeOut : Int) :
    Option Outcome :=
  WaitLoop w fuel 0 s iTimeOut []

/-! ## Observations on outcomes -/

/-- Number of calls to `ThreadSleep` recorded in a trace (each call is one
`sleep` or one `usleep`). -/
def sleepCount (tr : List Event) : Nat :=
  tr.countP fun e =>
    match e with
    | Event.sleep _ => true
    | Event.usleep _ => true
    | _ => false

/-- Whether a trace holds a `pthread_cancel`. -/
def cancelled (tr : List Event) : Bool :=
  tr.any fun e =>
    match e with
    | Event.cancel _ => true
    | _ => false

/-- State of the instance at loop check `k` of `Stop`, as long as the loop has
kept going: every round writes the control flag and then sleeps once. -/
def stopPoll (w : Worker) (s : State) : Nat → State
  | 0 => s
  | k + 1 => duringSleep w k { stopPoll w s k with m_ThreadControl := THREAD_STOP }

/-- State of the instance at loop check `k` of `WaitThreadReady`, as long as
the loop has kept going. -/
def waitPoll (w : Worker) (s : State) : Nat → State
  | 0 => s
  | k + 1 => duringSleep w k (waitPoll w s k)

/-- State in which the loop of `Stop` is left when its last check finds `p`:
the control flag has been written unless the status was `THREAD_STOP`. -/
def stopLeave (p : State) : State :=
  if p.m_ThreadStatus ≠ THREAD_STOP then { p with m_ThreadControl := THREAD_STOP } else p

/-- Event with which the loop of `Stop` is left when its last check finds `p`:
a cancellation unless the status was `THREAD_STOP`. -/
def stopLeaveTrace (p : State) : List Event :=
  if p.m_ThreadStatus ≠ THREAD_STOP then [Event.cancel p.m_ThreadHandle] else []

/-- Enough loop checks for `Stop` with the budget `iTimeOut`. -/
def stopFuel (iTimeOut : Int) : Nat := (iTimeOut.toNat + 99) / 100 + 1

/-- Enough loop checks for `WaitThreadReady` with a non-zero budget. -/
def waitFuel (iTimeOut : Int) : Nat := (iTimeOut.toNat + 29) / 30 + 1

/-- The instance right after `Start("worker")` succeeded with handle 7 on a
fresh object: the worker has not yet reached its first loop check. -/
def justStarted : State :=
  { m_ThreadHandle := 7
    m_ThreadAttribute := AttrState.initialised
    m_ThreadName := "worker".toList
    m_ThreadStatus := THREAD_STOP
    m_ThreadControl := THREAD_RUN }

/-- A running instance: `justStarted` after the worker's first loop iteration. -/
def running : State := { justStarted with m_ThreadStatus := THREAD_RUN }

/-- The instance `running` after a forced `Stop(0)` whose worker wrote nothing
more: control is `THREAD_STOP`, the status is still `THREAD_RUN`, the handle
is null and the attribute object is destroyed. -/
def cancelledOnce : State :=
  { m_ThreadHandle := 0
    m_ThreadAttribute := AttrState.destroyed
    m_ThreadName := "worker".toList
    m_ThreadStatus := THREAD_RUN
    m_ThreadControl := THREAD_STOP }

/-! ## The worker loop -/

/-- What `Run` leaves behind: the state when it returns and, for every
invocation of `OnRun`, the state of the instance at the entry of that
invocation. -/
structure RunOutcome where
  state : State
  calls : List State
  deriving DecidableEq, Repr

/-- The `while` loop of `Run`.  `OnRun` is the user's task body; `env i` is what
has happened to the instance (through callers on other threads) by the time
invocation `i` of `OnRun` is over.  `i` counts the invocations so far, `calls`
records them. -/
def RunLoop (env : Nat → State → State) : Nat → Nat → State → List State → Option RunOutcome
  | 0, _, _, _ => none
  | fuel + 1, i, s, calls =>
    if s.m_ThreadControl ≠ THREAD_STOP then
      let s1 : State := { s with m_ThreadStatus := THREAD_RUN }
      RunLoop env fuel (i + 1) (env i s1) (calls ++ [s1])
    else
      some { state := { s with m_ThreadStatus := THREAD_STOP }, calls := calls }

/-- Method `Run()`. -/
def Run (fuel : Nat) (env : Nat → State → State) (s : State) : Option RunOutcome :=
  RunLoop env fuel 0 s []

/-- The assignment `m_ThreadStatus = THREAD_RUN` at the head of the loop body of
`Run`: the state in which `OnRun` is entered. -/
def runEnter (s : State) : State := { s with m_ThreadStatus := THREAD_RUN }

/-- The assignment `m_ThreadStatus = THREAD_STOP` after the loop of `Run`: the
state in which `Run` returns. -/
def runLeave (s : State) : State := { s with m_ThreadStatus := THREAD_STOP }

/-- State of the instance at loop check `i` of `Run`, as long as the loop has
kept going. -/
def runPoll (env : Nat → State → State) (s : State) : Nat → State
  | 0 => s
  | i + 1 => env i (runEnter (runPoll env s i))

/-- One loop check of `Run` with the assignment to the status that follows it:
`THREAD_RUN` on entering the body, `THREAD_STOP` on leaving the loop. -/
def RunCheck (s : State) : State :=
  if s.m_ThreadControl ≠ THREAD_STOP then { s with m_ThreadStatus := THREAD_RUN }
  else { s with m_ThreadStatus := THREAD_STOP }

/-- A cooperative worker: during every sleep of the caller it gets to one loop
check of `Run`. -/
def runWorker : Worker := fun _ s => (RunCheck s).m_ThreadStatus

/-- A caller that writes `THREAD_STOP` to the control flag while invocation 1 of
`OnRun` is running, and does nothing otherwise. -/
def stopDuringSecondCall : Nat → State → State := fun i st =>
  if i = 1 then { st with m_ThreadControl := THREAD_STOP } else st

/-! ## The class `Semaphore` -/

/-- The class `Semaphore`; `m_handle` is the count of the `sem_t` behind the
pointer. -/
structure Semaphore where
  m_handle : Nat
  deriving DecidableEq, Repr

/-- The constructor `Semaphore()`: `sem_init(m_handle, 0, 1)`. -/
def Semaphore.new : Semaphore := { m_handle := 1 }

/-- Method `Lock()`: `sem_wait` takes one unit as soon as the count is positive,
then `true` is returned; `none` stands for a caller still blocked in
`sem_wait`. -/
def Semaphore.Lock (s : Semaphore) : Option (Bool × Semaphore) :=
  if s.m_handle > 0 then some (true, { m_handle := s.m_handle - 1 }) else none

/-- The largest count a `sem_t` holds, `SEM_VALUE_MAX` of the C library (the
value of glibc, which is `INT_MAX`). -/
def SEM_VALUE_MAX : Nat := 2147483647

/-- Method `UnLock()`: `sem_post` adds one unit, unless the count is at
`SEM_VALUE_MAX`, where it fails with `EOVERFLOW` and leaves the count alone.
The answer of `sem_post` is not looked at: `true` is returned either way. -/
def Semaphore.UnLock (s : Semaphore) : Bool × Semaphore :=
  if s.m_handle < SEM_VALUE_MAX then (true, { m_handle := s.m_handle + 1 })
  else (true, s)

/-- Method `IsLocked()`: `sem_getvalue` stores the count in `sval`. -/
def Semaphore.IsLocked (s : Semaphore) : Bool :=
  let sval : Int := (s.m_handle : Int)
  sval == 0

/-- A call on a semaphore. -/
inductive SemOp where
  | lock
  | unlock
  deriving DecidableEq, Repr

/-- A sequence of calls, one after the other; `none` when a `Lock()` in it does
not complete. -/
def Semaphore.runOps : Semaphore → List SemOp → Option Semaphore
  | s, [] => some s
  | s, SemOp.lock :: ops =>
    match s.Lock with
    | none => none
    | some r => Semaphore.runOps r.2 ops
  | s, SemOp.unlock :: ops => Semaphore.runOps s.UnLock.2 ops

/-- Number of `Lock()` calls in a sequence. -/
def lockCount (ops : List SemOp) : Nat := ops.count SemOp.lock

/-- Number of `UnLock()` calls in a sequence. -/
def unlockCount (ops : List SemOp) : Nat := ops.count SemOp.unlock

/-! ## Sleep durations -/

/-- Time asked for by the sleeping calls of a trace, in microseconds. -/
def sleepMicros : List Event → Nat
  | [] => 0
  | Event.sleep seconds :: tr => seconds * 1000000 + sleepMicros tr
  | Event.usleep usec :: tr => usec + sleepMicros tr
  | _ :: tr => sleepMicros tr

/-! ## Auxiliary facts -/

theorem ThreadSleep_100 : ThreadSleep 100 = [Event.usleep 100000] := by decide

theorem ThreadSleep_30 : ThreadSleep 30 = [Event.usleep 30000] := by decide

theorem subInt32_exact (a b : Int) (h1 : -2147483648 ≤ a - b) (h2 : a - b ≤ 2147483647) :
    subInt32 a b = a - b := by
  unfold subInt32 wrapInt32
  omega

theorem sleepCount_append (a b : List Event) :
    sleepCount (a ++ b) = sleepCount a + sleepCount b := by
  simp [sleepCount]

theorem sleepCount_replicate_usleep (n u : Nat) :
    sleepCount (List.replicate n (Event.usleep u)) = n := by
  simp [sleepCount, List.countP_replicate]

theorem cancelled_append (a b : List Event) :
    cancelled (a ++ b) = (cancelled a || cancelled b) := by
  simp [cancelled]

theorem cancelled_replicate_usleep (n u : Nat) :
    cancelled (List.replicate n (Event.usleep u)) = false := by
  simp [cancelled]

/-! ## The loop of `Stop` -/

theorem StopLoop_succ (w : Worker) : ∀ (fuel k : Nat) (s : State) (T : Int)
    (tr : List Event) (o : Outcome),
    StopLoop w fuel k s T tr = some o → StopLoop w (fuel + 1) k s T tr = some o := by
  intro fuel
  induction fuel with
  | zero => intro k s T tr o h; simp [StopLoop] at h
  | succ f ih =>
    intro k s T tr o h
    rw [StopLoop] at h ⊢
    by_cases hs : s.m_ThreadStatus ≠ THREAD_STOP
    · by_cases hT : T ≤ 0
      · simpa [hs, hT] using h
      · rw [if_pos hs, if_neg hT] at h ⊢
        exact ih _ _ _ _ _ h
    · simpa [hs] using h

theorem StopLoop_mono (w : Worker) (k : Nat) (s : State) (T : Int) (tr : List Event)
    (o : Outcome) (f g : Nat) (hfg : f ≤ g)
    (h : StopLoop w f k s T tr = some o) : StopLoop w g k s T tr = some o := by
  induction hfg with
  | refl => exact h
  | step _ ih => exact StopLoop_succ w _ k s T tr o ih

theorem stopFuel_step (T : Int) (f : Nat) (hpos : 0 < T) (hf : stopFuel T ≤ f + 1) :
    stopFuel (T - 100) ≤ f := by
  unfold stopFuel at hf ⊢
  omega

theorem stopPoll_frame (w : Worker) (s : State) (k : Nat) :
    (stopPoll w s k).m_ThreadHandle = s.m_ThreadHandle ∧
    (stopPoll w s k).m_ThreadName = s.m_ThreadName ∧
    (stopPoll w s k).m_ThreadAttribute = s.m_ThreadAttribute := by
  induction k with
  | zero => exact ⟨rfl, rfl, rfl⟩
  | succ k ih => exact ih

theorem StopLoop_run (w : Worker) (s0 : State) (hh : s0.m_ThreadHandle ≠ 0) :
    ∀ (fuel k : Nat) (T : Int)
    (tr : List Event), T ≤ 2147483647 → stopFuel T ≤ fuel →
    ∃ n : Nat, (T ≤ 0 → n = 0) ∧ (0 < T → (n : Int) ≤ (T + 99) / 100) ∧
      (∀ j : Nat, j < n →
        (stopPoll w s0 (k + j)).m_ThreadStatus ≠ THREAD_STOP ∧ 0 < T - 100 * (j : Int)) ∧
      ((stopPoll w s0 (k + n)).m_ThreadStatus ≠ THREAD_STOP → T - 100 * (n : Int) ≤ 0) ∧
      StopLoop w fuel k (stopPoll w s0 k) T tr =
        some { state := stopLeave (stopPoll w s0 (k + n)),
               trace := tr ++ List.replicate n (Event.usleep 100000) ++
                 stopLeaveTrace (stopPoll w s0 (k + n)) } := by
  intro fuel
  induction fuel with
  | zero =>
    intro k T tr _ hf
    unfold stopFuel at hf
    omega
  | succ f ih =>
    intro k T tr hmax hf
    by_cases hs : (stopPoll w s0 k).m_ThreadStatus ≠ THREAD_STOP
    · by_cases hT : T ≤ 0
      · refine ⟨0, fun _ => rfl, fun h => by omega, fun j hj => by omega, fun _ => by simpa using hT, ?_⟩
        have hh2 : (stopPoll w s0 k).m_ThreadHandle ≠ 0 := by
          rw [(stopPoll_frame w s0 k).1]
          exact hh
        rw [StopLoop]
        simp [hs, hT, hh2, stopLeave, stopLeaveTrace]
      · have hpos : 0 < T := by omega
        obtain ⟨n, h1, h2, h3, h4, h5⟩ :=
          ih (k + 1) (T - 100) (tr ++ ThreadSleep 100) (by omega) (stopFuel_step T f hpos hf)
        have hidx : k + 1 + n = k + (n + 1) := by omega
        rw [hidx] at h4 h5
        refine ⟨n + 1, fun h => by omega, fun _ => ?_, ?_, ?_, ?_⟩
        · push_cast
          by_cases h100 : T - 100 ≤ 0
          · have := h1 h100
            subst this
            omega
          · have := h2 (by omega)
            omega
        · intro j hj
          cases j with
          | zero => exact ⟨hs, by simpa using hpos⟩
          | succ j =>
            have hj2 := h3 j (by omega)
            have hidx2 : k + 1 + j = k + (j + 1) := by omega
            rw [hidx2] at hj2
            refine ⟨hj2.1, ?_⟩
            have := hj2.2
            push_cast
            omega
        · intro hne
          have := h4 hne
          push_cast
          omega
        · rw [StopLoop]
          rw [if_pos hs, if_neg hT]
          rw [subInt32_exact T 100 (by omega) (by omega)]
          have hstep : duringSleep w k { stopPoll w s0 k with m_ThreadControl := THREAD_STOP }
              = stopPoll w s0 (k + 1) := rfl
          rw [hstep, h5, ThreadSleep_100]
          simp [List.replicate_succ]
    · refine ⟨0, fun _ => rfl, fun h => by omega, fun j hj => by omega,
        fun h => absurd h hs, ?_⟩
      rw [StopLoop]
      simp [hs, stopLeave, stopLeaveTrace]

theorem stopPoll_idle_status (s : State) (k : Nat) :
    (stopPoll idleWorker s k).m_ThreadStatus = s.m_ThreadStatus := by
  induction k with
  | zero => rfl
  | succ k ih => exact ih

/-! ## The loop of `WaitThreadReady` -/

theorem WaitLoop_succ (w : Worker) : ∀ (fuel k : Nat) (s : State) (T : Int)
    (tr : List Event) (o : Outcome),
    WaitLoop w fuel k s T tr = some o → WaitLoop w (fuel + 1) k s T tr = some o := by
  intro fuel
  induction fuel with
  | zero => intro k s T tr o h; simp [WaitLoop] at h
  | succ f ih =>
    intro k s T tr o h
    rw [WaitLoop] at h ⊢
    by_cases hs : s.m_ThreadStatus ≠ THREAD_RUN
    · rw [if_pos hs] at h ⊢
      by_cases hT : T = 0
      · rw [if_pos hT] at h ⊢
        exact ih _ _ _ _ _ h
      · rw [if_neg hT] at h ⊢
        by_cases ht : subInt32 T 30 ≤ 0
        · rw [if_pos ht] at h ⊢
          exact h
        · rw [if_neg ht] at h ⊢
          exact ih _ _ _ _ _ h
    · rw [if_neg hs] at h ⊢
      exact h

theorem WaitLoop_mono (w : Worker) (k : Nat) (s : State) (T : Int) (tr : List Event)
    (o : Outcome) (f g : Nat) (hfg : f ≤ g)
    (h : WaitLoop w f k s T tr = some o) : WaitLoop w g k s T tr = some o := by
  induction hfg with
  | refl => exact h
  | step _ ih => exact WaitLoop_succ w _ k s T tr o ih

theorem WaitLoop_sleeps_ge (w : Worker) : ∀ (fuel k : Nat) (s : State) (T : Int)
    (tr : List Event) (o : Outcome),
    WaitLoop w fuel k s T tr = some o → sleepCount tr ≤ sleepCount o.trace := by
  intro fuel
  induction fuel with
  | zero => intro k s T tr o h; simp [WaitLoop] at h
  | succ f ih =>
    intro k s T tr o h
    rw [WaitLoop] at h
    have hstep : sleepCount tr ≤ sleepCount (tr ++ ThreadSleep 30) := by
      rw [sleepCount_append]; omega
    by_cases hs : s.m_ThreadStatus ≠ THREAD_RUN
    · rw [if_pos hs] at h
      by_cases hT : T = 0
      · rw [if_pos hT] at h
        exact le_trans hstep (ih _ _ _ _ _ h)
      · rw [if_neg hT] at h
        by_cases ht : subInt32 T 30 ≤ 0
        · rw [if_pos ht] at h
          cases h
          exact hstep
        · rw [if_neg ht] at h
          exact le_trans hstep (ih _ _ _ _ _ h)
    · rw [if_neg hs] at h
      cases h
      exact le_refl _

theorem waitPoll_frame (w : Worker) (s : State) (k : Nat) :
    (waitPoll w s k).m_ThreadControl = s.m_ThreadControl ∧
    (waitPoll w s k).m_ThreadHandle = s.m_ThreadHandle ∧
    (waitPoll w s k).m_ThreadName = s.m_ThreadName ∧
    (waitPoll w s k).m_ThreadAttribute = s.m_ThreadAttribute := by
  induction k with
  | zero => exact ⟨rfl, rfl, rfl, rfl⟩
  | succ k ih => exact ih

theorem waitPoll_idle (s : State) (k : Nat) : waitPoll idleWorker s k = s := by
  induction k with
  | zero => rfl
  | succ k ih =>
    show duringSleep idleWorker k (waitPoll idleWorker s k) = s
    rw [ih]
    rfl

theorem waitFuel_step (T : Int) (f : Nat) (hpos : 0 < T - 30) (hf : waitFuel T ≤ f + 1) :
    waitFuel (T - 30) ≤ f := by
  unfold waitFuel at hf ⊢
  omega

theorem WaitLoop_run (w : Worker) (s0 : State) : ∀ (fuel k : Nat) (T : Int)
    (tr : List Event), T ≠ 0 → -2147483618 ≤ T → T ≤ 2147483647 → waitFuel T ≤ fuel →
    ∃ n : Nat, (n : Int) ≤ max 1 ((T + 29) / 30) ∧
      (∀ j : Nat, j < n → (waitPoll w s0 (k + j)).m_ThreadStatus ≠ THREAD_RUN) ∧
      WaitLoop w fuel k (waitPoll w s0 k) T tr =
        some { state := waitPoll w s0 (k + n),
               trace := tr ++ List.replicate n (Event.usleep 30000) } := by
  intro fuel
  induction fuel with
  | zero =>
    intro k T tr _ _ _ hf
    unfold waitFuel at hf
    omega
  | succ f ih =>
    intro k T tr hne hlo hhi hf
    have hsub : subInt32 T 30 = T - 30 := subInt32_exact T 30 (by omega) (by omega)
    by_cases hs : (waitPoll w s0 k).m_ThreadStatus ≠ THREAD_RUN
    · have hstep : duringSleep w k (waitPoll w s0 k) = waitPoll w s0 (k + 1) := rfl
      by_cases ht : T - 30 ≤ 0
      · refine ⟨1, by omega, ?_, ?_⟩
        · intro j hj
          have : j = 0 := by omega
          subst this
          exact hs
        · rw [WaitLoop, if_pos hs, if_neg hne, hsub, if_pos ht, hstep, ThreadSleep_30]
          rfl
      · obtain ⟨n, h1, h2, h3⟩ :=
          ih (k + 1) (T - 30) (tr ++ ThreadSleep 30) (by omega) (by omega) (by omega)
            (waitFuel_step T f (by omega) hf)
        have hidx : k + 1 + n = k + (n + 1) := by omega
        rw [hidx] at h3
        refine ⟨n + 1, ?_, ?_, ?_⟩
        · push_cast
          omega
        · intro j hj
          cases j with
          | zero => exact hs
          | succ j =>
            have hj2 := h2 j (by omega)
            have hidx2 : k + 1 + j = k + (j + 1) := by omega
            rw [hidx2] at hj2
            exact hj2
        · rw [WaitLoop, if_pos hs, if_neg hne, hsub, if_neg ht, hstep, h3, ThreadSleep_30]
          simp [List.replicate_succ]
    · refine ⟨0, by omega, fun j hj => by omega, ?_⟩
      rw [WaitLoop, if_neg hs]
      simp

theorem WaitLoop_zero_run (w : Worker) (s0 : State) : ∀ (m fuel k : Nat) (tr : List Event),
    (∀ j : Nat, j < m → (waitPoll w s0 (k + j)).m_ThreadStatus ≠ THREAD_RUN) →
    (waitPoll w s0 (k + m)).m_ThreadStatus = THREAD_RUN → m < fuel →
    WaitLoop w fuel k (waitPoll w s0 k) 0 tr =
      some { state := waitPoll w s0 (k + m),
             trace := tr ++ List.replicate m (Event.usleep 30000) } := by
  intro m
  induction m with
  | zero =>
    intro fuel k tr _ hrun hf
    obtain ⟨f, rfl⟩ : ∃ f, fuel = f + 1 := ⟨fuel - 1, by omega⟩
    have hrun2 : ¬ (waitPoll w s0 k).m_ThreadStatus ≠ THREAD_RUN := by
      simpa using hrun
    rw [WaitLoop, if_neg hrun2]
    simp
  | succ m ih =>
    intro fuel k tr hbefore hrun hf
    obtain ⟨f, rfl⟩ : ∃ f, fuel = f + 1 := ⟨fuel - 1, by omega⟩
    have hs : (waitPoll w s0 k).m_ThreadStatus ≠ THREAD_RUN := hbefore 0 (by omega)
    have hstep : duringSleep w k (waitPoll w s0 k) = waitPoll w s0 (k + 1) := rfl
    have hidx : k + 1 + m = k + (m + 1) := by omega
    have hrec := ih f (k + 1) (tr ++ ThreadSleep 30)
      (fun j hj => by
        have := hbefore (j + 1) (by omega)
        have hidx2 : k + 1 + j = k + (j + 1) := by omega
        rw [hidx2]
        exact this)
      (by rw [hidx]; exact hrun) (by omega)
    rw [hidx] at hrec
    rw [WaitLoop, if_pos hs, if_pos rfl, hstep, hrec, ThreadSleep_30]
    simp [List.replicate_succ]

theorem WaitLoop_zero_none (w : Worker) (s0 : State)
    (hnever : ∀ j : Nat, (waitPoll w s0 j).m_ThreadStatus ≠ THREAD_RUN) :
    ∀ (fuel k : Nat) (tr : List Event), WaitLoop w fuel k (waitPoll w s0 k) 0 tr = none := by
  intro fuel
  induction fuel with
  | zero => intro k tr; rfl
  | succ f ih =>
    intro k tr
    have hstep : duringSleep w k (waitPoll w s0 k) = waitPoll w s0 (k + 1) := rfl
    rw [WaitLoop, if_pos (hnever k), if_pos rfl, hstep]
    exact ih (k + 1) _

theorem WaitLoop_zero_status (w : Worker) : ∀ (fuel k : Nat) (s : State)
    (tr : List Event) (o : Outcome),
    WaitLoop w fuel k s 0 tr = some o → o.state.m_ThreadStatus = THREAD_RUN := by
  intro fuel
  induction fuel with
  | zero => intro k s tr o h; simp [WaitLoop] at h
  | succ f ih =>
    intro k s tr o h
    rw [WaitLoop] at h
    by_cases hs : s.m_ThreadStatus ≠ THREAD_RUN
    · rw [if_pos hs, if_pos rfl] at h
      exact ih _ _ _ _ h
    · rw [if_neg hs] at h
      cases h
      simpa using hs

theorem WaitLoop_idle_state : ∀ (fuel k : Nat) (s : State) (T : Int)
    (tr : List Event) (o : Outcome),
    WaitLoop idleWorker fuel k s T tr = some o → o.state = s := by
  intro fuel
  induction fuel with
  | zero => intro k s T tr o h; simp [WaitLoop] at h
  | succ f ih =>
    intro k s T tr o h
    have hidle : duringSleep idleWorker k s = s := rfl
    rw [WaitLoop, hidle] at h
    by_cases hs : s.m_ThreadStatus ≠ THREAD_RUN
    · rw [if_pos hs] at h
      by_cases hT : T = 0
      · rw [if_pos hT] at h
        exact ih _ _ _ _ _ h
      · rw [if_neg hT] at h
        by_cases ht : subInt32 T 30 ≤ 0
        · rw [if_pos ht] at h
          cases h
          rfl
        · rw [if_neg ht] at h
          exact ih _ _ _ _ _ h
    · rw [if_neg hs] at h
      cases h
      rfl

/-! ## Facts about `Stop` shared by several results -/

theorem StopLoop_idle_status : ∀ (fuel k : Nat) (s : State) (T : Int)
    (tr : List Event) (o : Outcome),
    StopLoop idleWorker fuel k s T tr = some o →
      o.state.m_ThreadStatus = s.m_ThreadStatus := by
  intro fuel
  induction fuel with
  | zero => intro k s T tr o h; simp [StopLoop] at h
  | succ f ih =>
    intro k s T tr o h
    rw [StopLoop] at h
    by_cases hs : s.m_ThreadStatus ≠ THREAD_STOP
    · rw [if_pos hs] at h
      by_cases hT : T ≤ 0
      · rw [if_pos hT] at h
        by_cases h0 : s.m_ThreadHandle = 0
        · rw [if_pos h0] at h
          cases h
        · rw [if_neg h0] at h
          cases h
          rfl
      · rw [if_neg hT] at h
        have h2 := ih _ _ _ _ _ h
        exact h2
    · rw [if_neg hs] at h
      cases h
      rfl

theorem Stop_status_of_loop (fuel : Nat) (w : Worker) (s : State) (T : Int) (o : Outcome)
    (h : Stop fuel w s T = some o) :
    ∃ o1, StopLoop w fuel 0 s T [] = some o1 ∧
      o.state.m_ThreadStatus = o1.state.m_ThreadStatus ∧
      o.state.m_ThreadControl = o1.state.m_ThreadControl ∧
      o.state.m_ThreadName = o1.state.m_ThreadName ∧
      o.state.m_ThreadHandle = 0 ∧
      o.state.m_ThreadAttribute = AttrState.destroyed ∧
      o.trace = o1.trace ++ [Event.attrDestroy] := by
  unfold Stop at h
  cases hl : StopLoop w fuel 0 s T [] with
  | none => rw [hl] at h; cases h
  | some o1 =>
    rw [hl] at h
    cases h
    exact ⟨o1, rfl, rfl, rfl, rfl, rfl, rfl, rfl⟩

/-- The forced path on an instance that owns a handle: a status other than
`THREAD_STOP` and no budget left. -/
theorem Stop_forced (fuel : Nat) (w : Worker) (s : State) (T : Int)
    (hs : s.m_ThreadStatus ≠ THREAD_STOP) (hT : T ≤ 0) (hh : s.m_ThreadHandle ≠ 0) :
    Stop (fuel + 1) w s T =
      some { state := { s with m_ThreadControl := THREAD_STOP,
                               m_ThreadAttribute := AttrState.destroyed,
                               m_ThreadHandle := 0 },
             trace := [Event.cancel s.m_ThreadHandle, Event.attrDestroy] } := by
  have hh2 : ¬ s.m_ThreadHandle = 0 := hh
  unfold Stop
  rw [StopLoop, if_pos hs, if_pos hT, if_neg hh2]
  rfl

/-- The forced path on the null handle: `pthread_cancel` is reached and the call
never returns. -/
theorem Stop_forced_null (fuel : Nat) (w : Worker) (s : State) (T : Int)
    (hs : s.m_ThreadStatus ≠ THREAD_STOP) (hT : T ≤ 0) (h0 : s.m_ThreadHandle = 0) :
    Stop fuel w s T = none := by
  unfold Stop
  cases fuel with
  | zero => rfl
  | succ f => rw [StopLoop, if_pos hs, if_pos hT, if_pos h0]

/-- The loop is skipped when the status is `THREAD_STOP` at the call. -/
theorem Stop_skipped (fuel : Nat) (w : Worker) (s : State) (T : Int)
    (hs : s.m_ThreadStatus = THREAD_STOP) :
    Stop (fuel + 1) w s T =
      some { state := { s with m_ThreadAttribute := AttrState.destroyed,
                               m_ThreadHandle := 0 },
             trace := [Event.attrDestroy] } := by
  have hs2 : ¬ s.m_ThreadStatus ≠ THREAD_STOP := by simpa using hs
  unfold Stop
  rw [StopLoop, if_neg hs2]
  rfl

/-! ## Results -/

/-- C1: the control flag is written only inside the loop of `Stop`, and the loop
is skipped when the status is `THREAD_STOP` at the call.  Right after
`Start("worker")` succeeded on a fresh object (control `THREAD_RUN`, the worker
not yet at its first loop check), `Stop` returns for every timeout and every
worker with the control flag still `THREAD_RUN`, not `THREAD_STOP`. -/
theorem Stop_after_Start_leaves_control_running :
    Start new "worker".toList (0, 7) = some (true, { state := justStarted, trace := [] }) ∧
    ∀ (w : Worker) (T : Int) (fuel : Nat), ∃ o,
      Stop (fuel + 1) w justStarted T = some o ∧
      o.state.m_ThreadControl = THREAD_RUN ∧ o.state.m_ThreadControl ≠ THREAD_STOP ∧
      o.trace = [Event.attrDestroy] := by
  refine ⟨by decide, fun w T fuel => ?_⟩
  exact ⟨_, Stop_skipped fuel w justStarted T rfl, rfl, by decide, rfl⟩

/-- C2 fails as stated, in two ways.  On a running instance that owns a handle
and whose worker never reaches another loop check, no run of `Stop(0)`
returns with `GetThreadStatus() == THREAD_STOP`.  And the instance a forced
`Stop(0)` leaves behind has status `THREAD_RUN` and a null handle: there a
further `Stop(0)` reaches `pthread_cancel` on the null handle and does not
return at all. -/
theorem Stop_zero_status_not_stopped :
    (¬ ∃ (fuel : Nat) (o : Outcome), Stop fuel idleWorker running 0 = some o ∧
        GetThreadStatus o.state = THREAD_STOP) ∧
    Stop 1 idleWorker running 0 =
      some { state := cancelledOnce, trace := [Event.cancel 7, Event.attrDestroy] } ∧
    cancelledOnce.m_ThreadStatus = THREAD_RUN ∧
    (¬ ∃ (fuel : Nat) (o : Outcome), Stop fuel idleWorker cancelledOnce 0 = some o) := by
  refine ⟨?_, by decide, rfl, ?_⟩
  · rintro ⟨fuel, o, h, hst⟩
    cases fuel with
    | zero => simp [Stop, StopLoop] at h
    | succ f =>
      rw [Stop_forced f idleWorker running 0 (by decide) (by decide) (by decide)] at h
      cases h
      revert hst
      decide
  · rintro ⟨fuel, o, h⟩
    rw [Stop_forced_null fuel idleWorker cancelledOnce 0 (by decide) (by decide) rfl] at h
    cases h

/-- C2, amended: for every instance whose status is `THREAD_RUN`, that owns a
handle (non-null) and whose worker never reaches another loop check,
`Stop(0)` returns at its first loop check without sleeping, having issued one
`pthread_cancel` on that handle; afterwards control is `THREAD_STOP`, the
handle is null and `GetThreadStatus()` still answers `THREAD_RUN`. -/
theorem Stop_zero_on_running (s : State) (fuel : Nat)
    (hrun : s.m_ThreadStatus = THREAD_RUN) (hh : s.m_ThreadHandle ≠ 0) :
    ∃ o, Stop (fuel + 1) idleWorker s 0 = some o ∧
      GetThreadStatus o.state = THREAD_RUN ∧
      o.state.m_ThreadControl = THREAD_STOP ∧
      o.state.m_ThreadHandle = 0 ∧
      sleepCount o.trace = 0 ∧
      o.trace = [Event.cancel s.m_ThreadHandle, Event.attrDestroy] := by
  have hs : s.m_ThreadStatus ≠ THREAD_STOP := by rw [hrun]; decide
  exact ⟨_, Stop_forced fuel idleWorker s 0 hs (le_refl 0) hh, hrun, rfl, rfl, rfl, rfl⟩

theorem Stop_zero_on_running_witness :
    running.m_ThreadStatus = THREAD_RUN ∧ running.m_ThreadHandle ≠ 0 ∧
    ∃ o, Stop 1 idleWorker running 0 = some o ∧
      GetThreadStatus o.state = THREAD_RUN ∧
      o.state.m_ThreadControl = THREAD_STOP ∧
      o.state.m_ThreadHandle = 0 ∧
      sleepCount o.trace = 0 ∧
      o.trace = [Event.cancel running.m_ThreadHandle, Event.attrDestroy] :=
  ⟨rfl, by decide, Stop_zero_on_running running 0 rfl (by decide)⟩

/-- C3: `Stop` ends with `pthread_attr_destroy`, so the attribute object that the
constructor initialised is destroyed when `Stop` has returned.  On a running
instance both the cooperative path (`Stop(2000)`, the worker reporting
`THREAD_STOP` during the first sleep) and the forced path (`Stop(0)`) return
with the handle null and the attribute object destroyed, while a fresh object
has it initialised. -/
theorem Stop_destroys_attribute :
    new.m_ThreadAttribute = AttrState.initialised ∧
    running.m_ThreadAttribute = AttrState.initialised ∧
    (∃ o, Stop 2 (observed fun _ => THREAD_STOP) running 2000 = some o ∧
      o.state.m_ThreadHandle = 0 ∧ cancelled o.trace = false ∧
      o.state.m_ThreadAttribute = AttrState.destroyed) ∧
    (∃ o, Stop 1 idleWorker running 0 = some o ∧
      o.state.m_ThreadHandle = 0 ∧ cancelled o.trace = true ∧
      o.state.m_ThreadAttribute = AttrState.destroyed) := by
  refine ⟨rfl, rfl, ⟨_, rfl, ?_, ?_, ?_⟩, ⟨_, rfl, ?_, ?_, ?_⟩⟩ <;> decide

/-- C4 fails as stated: `Pause`, a caller-side operation, assigns the status.  On
a running instance, with no worker step in between, the status after `Pause()`
differs from the status before. -/
theorem Pause_writes_status :
    running.m_ThreadStatus = THREAD_RUN ∧
    (Pause running).m_ThreadStatus = THREAD_PAUSE ∧
    (Pause running).m_ThreadStatus ≠ running.m_ThreadStatus := by
  decide

/-- C4, amended: every caller-side operation other than `Pause` returns with the
status it found when the worker takes no step during the call (`Start`, `Stop`,
`Resume`, `WaitThreadReady`; the two getters only read); `Pause` leaves the
status alone when it is not `THREAD_RUN` and otherwise sets it to
`THREAD_PAUSE`.  So `Run` and `Pause` are the only writers of the status. -/
theorem status_written_only_by_Pause (s : State) (name : List Char) (create : Int × Nat)
    (T : Int) (fuel : Nat) :
    (∀ r, Start s name create = some r → r.2.state.m_ThreadStatus = s.m_ThreadStatus) ∧
    (∀ o, Stop fuel idleWorker s T = some o → o.state.m_ThreadStatus = s.m_ThreadStatus) ∧
    (Resume s).m_ThreadStatus = s.m_ThreadStatus ∧
    (∀ o, WaitThreadReady fuel idleWorker s T = some o →
      o.state.m_ThreadStatus = s.m_ThreadStatus) ∧
    GetThreadStatus s = s.m_ThreadStatus ∧
    GetThreadName s = s.m_ThreadName ∧
    (s.m_ThreadStatus ≠ THREAD_RUN → (Pause s).m_ThreadStatus = s.m_ThreadStatus) ∧
    (s.m_ThreadStatus = THREAD_RUN → (Pause s).m_ThreadStatus = THREAD_PAUSE) := by
  refine ⟨?_, ?_, ?_, ?_, rfl, rfl, ?_, ?_⟩
  · intro r h
    unfold Start at h
    by_cases hc : create.1 ≠ 0
    · simp only [if_pos hc, if_true] at h
      cases h
      rfl
    · simp only [if_neg hc] at h
      by_cases hh : create.2 = 0
      · simp only [hh, if_true] at h
        cases h
        rfl
      · simp only [hh, if_false] at h
        cases hn : strcpyName name with
        | none => rw [hn] at h; cases h
        | some nm =>
          rw [hn] at h
          cases h
          rfl
  · intro o h
    obtain ⟨o1, hl, hst, _⟩ := Stop_status_of_loop fuel idleWorker s T o h
    rw [hst]
    exact StopLoop_idle_status fuel 0 s T [] o1 hl
  · unfold Resume
    split <;> rfl
  · intro o h
    rw [WaitLoop_idle_state fuel 0 s T [] o h]
  · intro h
    unfold Pause
    rw [if_neg h]
  · intro h
    unfold Pause
    rw [if_pos h]

theorem status_written_only_by_Pause_witness :
    (∃ r, Start new "worker".toList (0, 7) = some r ∧
      r.2.state.m_ThreadStatus = new.m_ThreadStatus) ∧
    (∃ o, Stop 3 idleWorker running 150 = some o ∧
      o.state.m_ThreadStatus = running.m_ThreadStatus) ∧
    (∃ o, WaitThreadReady 3 idleWorker justStarted 50 = some o ∧
      o.state.m_ThreadStatus = justStarted.m_ThreadStatus) ∧
    (Pause running).m_ThreadStatus = THREAD_PAUSE :=
  ⟨⟨_, rfl, (status_written_only_by_Pause new "worker".toList (0, 7) 0 0).1 _ rfl⟩,
   ⟨_, rfl, (status_written_only_by_Pause running [] (0, 0) 150 3).2.1 _ rfl⟩,
   ⟨_, rfl, (status_written_only_by_Pause justStarted [] (0, 0) 50 3).2.2.2.1 _ rfl⟩,
   (status_written_only_by_Pause running [] (0, 0) 0 0).2.2.2.2.2.2.2 rfl⟩

/-- C5: `Pause()` on a status `THREAD_RUN` sets control and status to
`THREAD_PAUSE`; on any other status it changes neither.  Name, handle and
attribute object are untouched in both cases. -/
theorem Pause_spec (s : State) :
    (s.m_ThreadStatus = THREAD_RUN →
      (Pause s).m_ThreadControl = THREAD_PAUSE ∧ (Pause s).m_ThreadStatus = THREAD_PAUSE) ∧
    (s.m_ThreadStatus ≠ THREAD_RUN →
      (Pause s).m_ThreadControl = s.m_ThreadControl ∧
      (Pause s).m_ThreadStatus = s.m_ThreadStatus) ∧
    (Pause s).m_ThreadName = s.m_ThreadName ∧
    (Pause s).m_ThreadHandle = s.m_ThreadHandle ∧
    (Pause s).m_ThreadAttribute = s.m_ThreadAttribute := by
  unfold Pause
  by_cases h : s.m_ThreadStatus = THREAD_RUN
  · rw [if_pos h]
    exact ⟨fun _ => ⟨rfl, rfl⟩, fun hn => absurd h hn, rfl, rfl, rfl⟩
  · rw [if_neg h]
    exact ⟨fun hr => absurd hr h, fun _ => ⟨rfl, rfl⟩, rfl, rfl, rfl⟩

theorem Pause_spec_witness :
    ((Pause running).m_ThreadControl = THREAD_PAUSE ∧
      (Pause running).m_ThreadStatus = THREAD_PAUSE) ∧
    ((Pause justStarted).m_ThreadControl = THREAD_RUN ∧
      (Pause justStarted).m_ThreadStatus = THREAD_STOP) :=
  ⟨(Pause_spec running).1 rfl, (Pause_spec justStarted).2.1 (by decide)⟩

/-- C6: `Resume()` on a status `THREAD_PAUSE` sets control to `THREAD_RUN` and
leaves the status at `THREAD_PAUSE`; on any other status it changes neither
control nor status, whatever control was.  Name, handle and attribute object
are untouched in both cases. -/
theorem Resume_spec (s : State) :
    (s.m_ThreadStatus = THREAD_PAUSE →
      (Resume s).m_ThreadControl = THREAD_RUN ∧ (Resume s).m_ThreadStatus = THREAD_PAUSE) ∧
    (s.m_ThreadStatus ≠ THREAD_PAUSE →
      (Resume s).m_ThreadControl = s.m_ThreadControl ∧
      (Resume s).m_ThreadStatus = s.m_ThreadStatus) ∧
    (Resume s).m_ThreadName = s.m_ThreadName ∧
    (Resume s).m_ThreadHandle = s.m_ThreadHandle ∧
    (Resume s).m_ThreadAttribute = s.m_ThreadAttribute := by
  unfold Resume
  by_cases h : s.m_ThreadStatus = THREAD_PAUSE
  · rw [if_pos h]
    exact ⟨fun _ => ⟨rfl, h⟩, fun hn => absurd h hn, rfl, rfl, rfl⟩
  · rw [if_neg h]
    exact ⟨fun hr => absurd hr h, fun _ => ⟨rfl, rfl⟩, rfl, rfl, rfl⟩

theorem Resume_spec_witness :
    ((Resume (Pause running)).m_ThreadControl = THREAD_RUN ∧
      (Resume (Pause running)).m_ThreadStatus = THREAD_PAUSE) ∧
    ((Resume justStarted).m_ThreadControl = justStarted.m_ThreadControl ∧
      (Resume justStarted).m_ThreadStatus = justStarted.m_ThreadStatus) :=
  ⟨(Resume_spec (Pause running)).1 rfl, (Resume_spec justStarted).2.1 (by decide)⟩

/-- C8 fails as stated: at the non-zero timeout `INT_MIN` the decrement
`iTimeOut -= 30` leaves the range of `int` and comes back as `2147483618 > 0`,
so the `<= 0` test fails and the loop goes on: on a fresh object, whose status
is never `THREAD_RUN`, no run of `WaitThreadReady(-2147483648)` returns within
`max(1, ceil(T/30)) = 1` sleep. -/
theorem WaitThreadReady_int_min_not_bounded :
    ¬ ∃ (fuel : Nat) (o : Outcome),
        WaitThreadReady fuel idleWorker new (-2147483648) = some o ∧
        (sleepCount o.trace : Int) ≤ max 1 ((-2147483648 + 29) / 30) := by
  rintro ⟨fuel, o, h, hb⟩
  have hmax : max (1 : Int) ((-2147483648 + 29) / 30) = 1 := by decide
  rw [hmax] at hb
  unfold WaitThreadReady at h
  match fuel, h with
  | 0, h => cases h
  | 1, h =>
    have h1 : WaitLoop idleWorker 1 0 new (-2147483648) [] = none := by decide
    rw [h1] at h
    cases h
  | f + 2, h =>
    have h2 : WaitLoop idleWorker (f + 2) 0 new (-2147483648) [] =
        WaitLoop idleWorker f 2 new 2147483588 [Event.usleep 30000, Event.usleep 30000] := rfl
    rw [h2] at h
    have hge := WaitLoop_sleeps_ge idleWorker f 2 new 2147483588 _ o h
    have h2s : sleepCount [Event.usleep 30000, Event.usleep 30000] = 2 := rfl
    rw [h2s] at hge
    omega

/-- C8, amended: every non-zero `int` timeout `T` with `T >= INT_MIN + 30` (the
decrement stays in range) bounds `WaitThreadReady`.  For every worker and
every instance the call returns after `n <= max(1, ceil(T/30))` sleeps, each of
them `usleep(30000)`; a budget that counts down to exactly 0 returns.  The call
itself writes nothing: the state returned is the one the worker has produced
at check `n`, with control, name, handle and attribute object as before, and
it is the initial state when the worker takes no step. -/
theorem WaitThreadReady_bounded (w : Worker) (s : State) (T : Int)
    (hne : T ≠ 0) (hlo : -2147483618 ≤ T) (hhi : T ≤ 2147483647) :
    ∃ (n : Nat) (o : Outcome),
      (∀ fuel, waitFuel T ≤ fuel → WaitThreadReady fuel w s T = some o) ∧
      sleepCount o.trace = n ∧
      (n : Int) ≤ max 1 ((T + 29) / 30) ∧
      o.trace = List.replicate n (Event.usleep 30000) ∧
      (∀ j : Nat, j < n → (waitPoll w s j).m_ThreadStatus ≠ THREAD_RUN) ∧
      o.state = waitPoll w s n ∧
      o.state.m_ThreadControl = s.m_ThreadControl ∧
      o.state.m_ThreadName = s.m_ThreadName ∧
      o.state.m_ThreadHandle = s.m_ThreadHandle ∧
      o.state.m_ThreadAttribute = s.m_ThreadAttribute ∧
      (w = idleWorker → o.state = s) := by
  obtain ⟨n, h1, h2, h3⟩ := WaitLoop_run w s (waitFuel T) 0 T [] hne hlo hhi (le_refl _)
  simp only [Nat.zero_add, List.nil_append] at h2 h3
  have hwait0 : waitPoll w s 0 = s := rfl
  rw [hwait0] at h3
  obtain ⟨f1, f2, f3, f4⟩ := waitPoll_frame w s n
  refine ⟨n, { state := waitPoll w s n, trace := List.replicate n (Event.usleep 30000) },
    ?_, sleepCount_replicate_usleep n 30000, h1, rfl, h2, rfl, f1, f3, f2, f4, ?_⟩
  · intro fuel hf
    exact WaitLoop_mono w 0 s T [] _ _ fuel hf h3
  · intro hw
    subst hw
    exact waitPoll_idle s n

theorem WaitThreadReady_bounded_witness :
    (60 : Int) ≠ 0 ∧ (-2147483618 : Int) ≤ 60 ∧ (60 : Int) ≤ 2147483647 ∧
    ∃ (n : Nat) (o : Outcome),
      (∀ fuel, waitFuel 60 ≤ fuel → WaitThreadReady fuel idleWorker justStarted 60 = some o) ∧
      sleepCount o.trace = n ∧
      (n : Int) ≤ max 1 ((60 + 29) / 30) ∧
      o.trace = List.replicate n (Event.usleep 30000) ∧
      (∀ j : Nat, j < n → (waitPoll idleWorker justStarted j).m_ThreadStatus ≠ THREAD_RUN) ∧
      o.state = waitPoll idleWorker justStarted n ∧
      o.state.m_ThreadControl = justStarted.m_ThreadControl ∧
      o.state.m_ThreadName = justStarted.m_ThreadName ∧
      o.state.m_ThreadHandle = justStarted.m_ThreadHandle ∧
      o.state.m_ThreadAttribute = justStarted.m_ThreadAttribute ∧
      (idleWorker = idleWorker → o.state = justStarted) :=
  ⟨by decide, by decide, by decide,
    WaitThreadReady_bounded idleWorker justStarted 60 (by decide) (by decide) (by decide)⟩

/-- C9: `WaitThreadReady(0)` waits without bound.  If check `k` is the first
one at which the status is `THREAD_RUN`, the call returns at that check with
exactly `k` sleeps of `usleep(30000)` behind it (none when the status is
`THREAD_RUN` on entry); whenever it returns, the status it returns with is
`THREAD_RUN`; and if the status is `THREAD_RUN` at no check, the call has
not returned after any number of checks. -/
theorem WaitThreadReady_zero (w : Worker) (s : State) :
    (∀ k : Nat, (∀ j : Nat, j < k → (waitPoll w s j).m_ThreadStatus ≠ THREAD_RUN) →
      (waitPoll w s k).m_ThreadStatus = THREAD_RUN →
      ∀ fuel, k < fuel →
        WaitThreadReady fuel w s 0 =
          some { state := waitPoll w s k,
                 trace := List.replicate k (Event.usleep 30000) } ∧
        sleepCount (List.replicate k (Event.usleep 30000)) = k) ∧
    (∀ fuel o, WaitThreadReady fuel w s 0 = some o →
      o.state.m_ThreadStatus = THREAD_RUN) ∧
    ((∀ j : Nat, (waitPoll w s j).m_ThreadStatus ≠ THREAD_RUN) →
      ∀ fuel, WaitThreadReady fuel w s 0 = none) := by
  refine ⟨?_, ?_, ?_⟩
  · intro k hbefore hrun fuel hf
    have h := WaitLoop_zero_run w s k fuel 0 []
      (fun j hj => by rw [Nat.zero_add]; exact hbefore j hj)
      (by rw [Nat.zero_add]; exact hrun) hf
    simp only [Nat.zero_add, List.nil_append] at h
    exact ⟨h, sleepCount_replicate_usleep k 30000⟩
  · intro fuel o h
    exact WaitLoop_zero_status w fuel 0 s [] o h
  · intro hnever fuel
    exact WaitLoop_zero_none w s hnever fuel 0 []

theorem WaitThreadReady_zero_witness :
    (WaitThreadReady 5 (observed fun k => if k < 2 then THREAD_STOP else THREAD_RUN)
        justStarted 0 =
      some { state := running, trace := List.replicate 3 (Event.usleep 30000) } ∧
      sleepCount (List.replicate 3 (Event.usleep 30000)) = 3) ∧
    (∀ fuel, WaitThreadReady fuel idleWorker justStarted 0 = none) :=
  ⟨(WaitThreadReady_zero (observed fun k => if k < 2 then THREAD_STOP else THREAD_RUN)
      justStarted).1 3 (by decide) (by decide) 5 (by decide),
   (WaitThreadReady_zero idleWorker justStarted).2.2 (fun j => by
      rw [waitPoll_idle]; decide)⟩

/-- C10: `Start(name)` on an instance that owns no handle, with a name of at
most 63 characters.  If `pthread_create` fails (non-zero return code), `Start`
returns `false` and the whole state is as before, the handle null.  If it
succeeds and stores a non-null handle, `Start` returns `true`, the handle is
the one stored, `GetThreadName()` is `name`, control is `THREAD_RUN`, and
the status and the attribute object are as before. -/
theorem Start_spec (s : State) (name : List Char) (create : Int × Nat)
    (hnull : s.m_ThreadHandle = 0) (hlen : name.length ≤ 63) :
    (create.1 ≠ 0 →
      Start s name create = some (false, { state := s, trace := [Event.cerr] }) ∧
      s.m_ThreadHandle = 0) ∧
    (create.1 = 0 → create.2 ≠ 0 →
      ∃ o, Start s name create = some (true, o) ∧
        GetThreadName o.state = name ∧
        o.state.m_ThreadControl = THREAD_RUN ∧
        o.state.m_ThreadStatus = s.m_ThreadStatus ∧
        o.state.m_ThreadHandle = create.2 ∧
        o.state.m_ThreadAttribute = s.m_ThreadAttribute ∧
        o.trace = []) := by
  refine ⟨?_, ?_⟩
  · intro hc
    refine ⟨?_, hnull⟩
    unfold Start
    simp only [if_pos hc, if_true]
    rw [← hnull]
  · intro hc hh
    have hcpy : strcpyName name = some name := by
      unfold strcpyName
      rw [if_pos (by omega)]
    have hc2 : ¬ create.1 ≠ 0 := by simpa using hc
    refine ⟨{ state := { s with m_ThreadHandle := create.2, m_ThreadName := name,
                                m_ThreadControl := THREAD_RUN }, trace := [] },
      ?_, rfl, rfl, rfl, rfl, rfl, rfl⟩
    unfold Start
    simp only [if_neg hc2, if_neg hh, hcpy]

theorem Start_spec_witness :
    new.m_ThreadHandle = 0 ∧ "worker".toList.length ≤ 63 ∧
    (Start new "worker".toList (11, 0) =
        some (false, { state := new, trace := [Event.cerr] }) ∧
      new.m_ThreadHandle = 0) ∧
    (∃ o, Start new "worker".toList (0, 7) = some (true, o) ∧
        GetThreadName o.state = "worker".toList ∧
        o.state.m_ThreadControl = THREAD_RUN ∧
        o.state.m_ThreadStatus = new.m_ThreadStatus ∧
        o.state.m_ThreadHandle = 7 ∧
        o.state.m_ThreadAttribute = new.m_ThreadAttribute ∧
        o.trace = []) :=
  ⟨rfl, by decide,
    (Start_spec new "worker".toList (11, 0) rfl (by decide)).1 (by decide),
    (Start_spec new "worker".toList (0, 7) rfl (by decide)).2 rfl (by decide)⟩

/-! ## The loop of `Run` -/

theorem RunLoop_run (env : Nat → State → State) (s0 : State) :
    ∀ (n fuel i : Nat) (calls : List State),
    (∀ j : Nat, j < n → (runPoll env s0 (i + j)).m_ThreadControl ≠ THREAD_STOP) →
    (runPoll env s0 (i + n)).m_ThreadControl = THREAD_STOP → n < fuel →
    RunLoop env fuel i (runPoll env s0 i) calls =
      some { state := runLeave (runPoll env s0 (i + n)),
             calls := calls ++ (List.range n).map fun j => runEnter (runPoll env s0 (i + j)) } := by
  intro n
  induction n with
  | zero =>
    intro fuel i calls _ hstop hf
    obtain ⟨f, rfl⟩ : ∃ f, fuel = f + 1 := ⟨fuel - 1, by omega⟩
    have hstop2 : ¬ (runPoll env s0 i).m_ThreadControl ≠ THREAD_STOP := by
      simpa using hstop
    rw [RunLoop, if_neg hstop2]
    simp [runLeave]
  | succ n ih =>
    intro fuel i calls hbefore hstop hf
    obtain ⟨f, rfl⟩ : ∃ f, fuel = f + 1 := ⟨fuel - 1, by omega⟩
    have hgo : (runPoll env s0 i).m_ThreadControl ≠ THREAD_STOP := hbefore 0 (by omega)
    have hidx : i + 1 + n = i + (n + 1) := by omega
    have hrec := ih f (i + 1) (calls ++ [runEnter (runPoll env s0 i)])
      (fun j hj => by
        have := hbefore (j + 1) (by omega)
        have hidx2 : i + 1 + j = i + (j + 1) := by omega
        rw [hidx2]
        exact this)
      (by rw [hidx]; exact hstop) (by omega)
    rw [hidx] at hrec
    rw [RunLoop, if_pos hgo]
    show RunLoop env f (i + 1) (runPoll env s0 (i + 1))
      (calls ++ [runEnter (runPoll env s0 i)]) = _
    rw [hrec]
    have hlist : (List.range (n + 1)).map (fun j => runEnter (runPoll env s0 (i + j))) =
        runEnter (runPoll env s0 i) ::
          (List.range n).map (fun j => runEnter (runPoll env s0 (i + 1 + j))) := by
      rw [List.range_succ_eq_map, List.map_cons, List.map_map]
      congr 1
      apply List.map_congr_left
      intro j _
      have hidx3 : i + 1 + j = i + (j + 1) := by omega
      simp only [Function.comp, hidx3]
    rw [hlist]
    simp

theorem RunLoop_never (env : Nat → State → State) (s0 : State)
    (hnever : ∀ j : Nat, (runPoll env s0 j).m_ThreadControl ≠ THREAD_STOP) :
    ∀ (fuel i : Nat) (calls : List State),
      RunLoop env fuel i (runPoll env s0 i) calls = none := by
  intro fuel
  induction fuel with
  | zero => intro i calls; rfl
  | succ f ih =>
    intro i calls
    rw [RunLoop, if_pos (hnever i)]
    exact ih (i + 1) _

/-- The helper `RunCheck` is the loop of `Run` cut after one check: on a control
flag `THREAD_STOP` it is the whole of `Run`. -/
theorem Run_of_stop (env : Nat → State → State) (s : State) (fuel : Nat)
    (hstop : s.m_ThreadControl = THREAD_STOP) :
    Run (fuel + 1) env s = some { state := RunCheck s, calls := [] } := by
  have hstop2 : ¬ s.m_ThreadControl ≠ THREAD_STOP := by simpa using hstop
  unfold Run RunCheck
  rw [RunLoop, if_neg hstop2, if_neg hstop2]

/-! ## Sequences of semaphore calls -/

theorem runOps_count : ∀ (ops : List SemOp) (s t : Semaphore),
    (∀ p : List SemOp, p <+: ops →
      s.m_handle + unlockCount p ≤ SEM_VALUE_MAX + lockCount p) →
    Semaphore.runOps s ops = some t →
      t.m_handle + lockCount ops = s.m_handle + unlockCount ops := by
  intro ops
  induction ops with
  | nil =>
    intro s t _ h
    simp only [Semaphore.runOps, Option.some.injEq] at h
    subst h
    rfl
  | cons op ops ih =>
    intro s t hroom h
    cases op with
    | lock =>
      rw [Semaphore.runOps] at h
      unfold Semaphore.Lock at h
      by_cases hc : s.m_handle > 0
      · rw [if_pos hc] at h
        have h2 := ih _ _ (fun p hp => by
          have := hroom (SemOp.lock :: p) ((List.prefix_cons_inj SemOp.lock).mpr hp)
          simp only [lockCount, unlockCount, List.count_cons_self, List.count_cons_of_ne,
            ne_eq, reduceCtorEq, not_false_eq_true] at this ⊢
          omega) h
        simp only [lockCount, unlockCount, List.count_cons_self, List.count_cons_of_ne,
          ne_eq, reduceCtorEq, not_false_eq_true] at h2 ⊢
        omega
      · rw [if_neg hc] at h
        cases h
    | unlock =>
      rw [Semaphore.runOps] at h
      have hfirst := hroom [SemOp.unlock]
        ((List.prefix_cons_inj SemOp.unlock).mpr (List.nil_prefix))
      have hlt : s.m_handle < SEM_VALUE_MAX := by
        simp only [lockCount, unlockCount, List.count_cons_self, List.count_nil,
          List.count_cons_of_ne, ne_eq, reduceCtorEq, not_false_eq_true] at hfirst
        omega
      have hun : s.UnLock = (true, { m_handle := s.m_handle + 1 }) := by
        unfold Semaphore.UnLock
        rw [if_pos hlt]
      rw [hun] at h
      have h2 := ih _ _ (fun p hp => by
        have := hroom (SemOp.unlock :: p) ((List.prefix_cons_inj SemOp.unlock).mpr hp)
        simp only [lockCount, unlockCount, List.count_cons_self, List.count_cons_of_ne,
          ne_eq, reduceCtorEq, not_false_eq_true] at this ⊢
        omega) h
      simp only [lockCount, unlockCount, List.count_cons_self, List.count_cons_of_ne,
        ne_eq, reduceCtorEq, not_false_eq_true] at h2 ⊢
      omega

theorem runOps_append : ∀ (p q : List SemOp) (s : Semaphore),
    Semaphore.runOps s (p ++ q) =
      (Semaphore.runOps s p).bind fun t => Semaphore.runOps t q := by
  intro p
  induction p with
  | nil => intro q s; rfl
  | cons op p ih =>
    intro q s
    cases op with
    | lock =>
      rw [List.cons_append, Semaphore.runOps, Semaphore.runOps]
      cases hl : s.Lock with
      | none => rfl
      | some r => exact ih q r.2
    | unlock =>
      rw [List.cons_append, Semaphore.runOps, Semaphore.runOps]
      exact ih q _

/-! ## Results on the worker loop, the constructor and the semaphore -/

/-- C11: the worker loop.  If loop check number `n + 1` of `Run` is the first one
that reads `THREAD_STOP` in the control flag (the `n` checks before it read
something else), then `Run` returns, `OnRun` has been invoked exactly `n`
times, every invocation was entered with status `THREAD_RUN` and with the
control flag as the check before it had read it, and `Run` returns with status
`THREAD_STOP` and the control flag as the last check read it: `Run` never
writes control.  With `n = 0` the body is never invoked and the status is set
to `THREAD_STOP`. -/
theorem Run_spec (env : Nat → State → State) (s : State) (n : Nat)
    (hbefore : ∀ j : Nat, j < n → (runPoll env s j).m_ThreadControl ≠ THREAD_STOP)
    (hstop : (runPoll env s n).m_ThreadControl = THREAD_STOP) :
    ∃ o : RunOutcome,
      (∀ fuel, n < fuel → Run fuel env s = some o) ∧
      o.calls.length = n ∧
      (∀ c ∈ o.calls, c.m_ThreadStatus = THREAD_RUN) ∧
      o.calls = (List.range n).map (fun j => runEnter (runPoll env s j)) ∧
      (∀ j : Nat, j < n →
        (runEnter (runPoll env s j)).m_ThreadControl = (runPoll env s j).m_ThreadControl) ∧
      o.state.m_ThreadStatus = THREAD_STOP ∧
      o.state.m_ThreadControl = (runPoll env s n).m_ThreadControl ∧
      o.state.m_ThreadControl = THREAD_STOP ∧
      o.state.m_ThreadName = (runPoll env s n).m_ThreadName ∧
      o.state.m_ThreadHandle = (runPoll env s n).m_ThreadHandle ∧
      (n = 0 → o.calls = [] ∧ o.state = { s with m_ThreadStatus := THREAD_STOP }) := by
  have hrun := fun fuel (hf : n < fuel) => RunLoop_run env s n fuel 0 []
    (fun j hj => by rw [Nat.zero_add]; exact hbefore j hj)
    (by rw [Nat.zero_add]; exact hstop) hf
  simp only [Nat.zero_add, List.nil_append] at hrun
  have hpoll0 : runPoll env s 0 = s := rfl
  rw [hpoll0] at hrun
  refine ⟨{ state := runLeave (runPoll env s n),
            calls := (List.range n).map fun j => runEnter (runPoll env s j) },
    hrun, by simp, ?_, rfl, fun _ _ => rfl, rfl, rfl, hstop, rfl, rfl, ?_⟩
  · intro c hc
    obtain ⟨j, _, rfl⟩ := List.mem_map.mp hc
    rfl
  · intro hn
    subst hn
    exact ⟨rfl, rfl⟩

theorem Run_spec_witness :
    (∀ j : Nat, j < 2 →
      (runPoll stopDuringSecondCall justStarted j).m_ThreadControl ≠ THREAD_STOP) ∧
    (runPoll stopDuringSecondCall justStarted 2).m_ThreadControl = THREAD_STOP ∧
    ∃ o : RunOutcome,
      (∀ fuel, 2 < fuel → Run fuel stopDuringSecondCall justStarted = some o) ∧
      o.calls.length = 2 ∧
      (∀ c ∈ o.calls, c.m_ThreadStatus = THREAD_RUN) ∧
      o.calls = (List.range 2).map
        (fun j => runEnter (runPoll stopDuringSecondCall justStarted j)) ∧
      (∀ j : Nat, j < 2 →
        (runEnter (runPoll stopDuringSecondCall justStarted j)).m_ThreadControl =
          (runPoll stopDuringSecondCall justStarted j).m_ThreadControl) ∧
      o.state.m_ThreadStatus = THREAD_STOP ∧
      o.state.m_ThreadControl = (runPoll stopDuringSecondCall justStarted 2).m_ThreadControl ∧
      o.state.m_ThreadControl = THREAD_STOP ∧
      o.state.m_ThreadName = (runPoll stopDuringSecondCall justStarted 2).m_ThreadName ∧
      o.state.m_ThreadHandle = (runPoll stopDuringSecondCall justStarted 2).m_ThreadHandle ∧
      (2 = 0 → o.calls = [] ∧ o.state = { justStarted with m_ThreadStatus := THREAD_STOP }) :=
  ⟨by decide, by decide,
    Run_spec stopDuringSecondCall justStarted 2 (by decide) (by decide)⟩

/-- C12: right after construction `GetThreadStatus()` is `THREAD_STOP`, the
control flag is `THREAD_STOP`, `GetThreadName()` is the empty string and the
handle is null. -/
theorem new_spec :
    GetThreadStatus new = THREAD_STOP ∧
    new.m_ThreadControl = THREAD_STOP ∧
    GetThreadName new = [] ∧
    new.m_ThreadHandle = 0 :=
  ⟨rfl, rfl, rfl, rfl⟩

/-- C13 fails as stated in its general half: `UnLock()` does not leave `c + 1`
for every count `c`.  At `c = SEM_VALUE_MAX` the call of `sem_post` fails, the
count stays where it is, and `UnLock()` returns `true` all the same. -/
theorem UnLock_at_max_keeps_count :
    (Semaphore.UnLock { m_handle := SEM_VALUE_MAX }).1 = true ∧
    (Semaphore.UnLock { m_handle := SEM_VALUE_MAX }).2.m_handle = SEM_VALUE_MAX ∧
    (Semaphore.UnLock { m_handle := SEM_VALUE_MAX }).2.m_handle ≠ SEM_VALUE_MAX + 1 := by
  decide

/-- C13, amended: the semaphore round trip.  A fresh `Semaphore` has count 1 and
is not locked; `Lock()` on it completes, returns `true` and leaves it locked;
the matching `UnLock()` returns `true` and leaves it unlocked with count 1
again.  For every count `c`: `IsLocked()` is `true` exactly when `c = 0`;
`Lock()` completes exactly when `c > 0`, and then returns `true` and leaves
`c - 1`; `UnLock()` returns `true`, leaves `c + 1` when `c` is below
`SEM_VALUE_MAX` and leaves the count unchanged otherwise. -/
theorem Semaphore_round_trip :
    Semaphore.new.m_handle = 1 ∧
    Semaphore.new.IsLocked = false ∧
    (∃ s1, Semaphore.new.Lock = some (true, s1) ∧ s1.IsLocked = true ∧
      s1.UnLock.1 = true ∧ s1.UnLock.2.IsLocked = false ∧ s1.UnLock.2.m_handle = 1) ∧
    (∀ s : Semaphore,
      (s.IsLocked = true ↔ s.m_handle = 0) ∧
      (s.Lock.isSome = true ↔ s.m_handle > 0) ∧
      (∀ r, s.Lock = some r → r.1 = true ∧ r.2.m_handle + 1 = s.m_handle ∧
        r.2.m_handle = s.m_handle - 1) ∧
      s.UnLock.1 = true ∧
      (s.m_handle < SEM_VALUE_MAX → s.UnLock.2.m_handle = s.m_handle + 1) ∧
      (SEM_VALUE_MAX ≤ s.m_handle → s.UnLock.2 = s)) := by
  refine ⟨rfl, by decide, ⟨_, rfl, by decide, by decide, by decide, by decide⟩, ?_⟩
  intro s
  refine ⟨?_, ?_, ?_, ?_, ?_, ?_⟩
  · unfold Semaphore.IsLocked
    simp
  · unfold Semaphore.Lock
    by_cases hc : s.m_handle > 0
    · simp [hc]
    · simp [hc]
  · intro r hr
    unfold Semaphore.Lock at hr
    by_cases hc : s.m_handle > 0
    · rw [if_pos hc] at hr
      cases hr
      refine ⟨rfl, ?_, rfl⟩
      show s.m_handle - 1 + 1 = s.m_handle
      omega
    · rw [if_neg hc] at hr
      cases hr
  · unfold Semaphore.UnLock
    split <;> rfl
  · intro hlt
    unfold Semaphore.UnLock
    rw [if_pos hlt]
  · intro hge
    unfold Semaphore.UnLock
    rw [if_neg (by omega)]

theorem Semaphore_round_trip_witness :
    (Semaphore.UnLock { m_handle := 5 }).2.m_handle = 5 + 1 ∧
    Semaphore.UnLock { m_handle := SEM_VALUE_MAX } = (true, { m_handle := SEM_VALUE_MAX }) ∧
    (∃ s1, Semaphore.new.Lock = some (true, s1) ∧ s1.IsLocked = true ∧
      s1.UnLock.1 = true ∧ s1.UnLock.2.IsLocked = false ∧ s1.UnLock.2.m_handle = 1) :=
  ⟨(Semaphore_round_trip.2.2.2 { m_handle := 5 }).2.2.2.2.1 (by decide),
   Prod.ext (Semaphore_round_trip.2.2.2 { m_handle := SEM_VALUE_MAX }).2.2.2.1
     ((Semaphore_round_trip.2.2.2 { m_handle := SEM_VALUE_MAX }).2.2.2.2.2 (le_refl _)),
   Semaphore_round_trip.2.2.1⟩

/-- C14: the lifecycle scenario as a sequential trace.  `Start("worker")` succeeds
on a fresh object; the worker runs one loop check; `WaitThreadReady(1000)`
returns at once with status `THREAD_RUN`; `Pause()` makes the status
`THREAD_PAUSE`; `Resume()` followed by the next loop check of the worker makes
it `THREAD_RUN` again; `Stop(2000)`, the worker getting to its next loop check
during the first sleep, returns after that one sleep with status and control
`THREAD_STOP`, the handle null, no `pthread_cancel`, and the name still
`"worker"`. -/
theorem lifecycle_scenario :
    Start new "worker".toList (0, 7) = some (true, { state := justStarted, trace := [] }) ∧
    RunCheck justStarted = running ∧
    (∀ (fuel : Nat) (w : Worker),
      WaitThreadReady (fuel + 1) w running 1000 = some { state := running, trace := [] }) ∧
    GetThreadStatus running = THREAD_RUN ∧
    GetThreadStatus (Pause running) = THREAD_PAUSE ∧
    (Resume (Pause running)).m_ThreadControl = THREAD_RUN ∧
    RunCheck (Resume (Pause running)) = running ∧
    ∃ o : Outcome,
      (∀ fuel : Nat, Stop (fuel + 2) runWorker running 2000 = some o) ∧
      GetThreadStatus o.state = THREAD_STOP ∧
      o.state.m_ThreadControl = THREAD_STOP ∧
      o.state.m_ThreadHandle = 0 ∧
      cancelled o.trace = false ∧
      sleepCount o.trace = 1 ∧
      GetThreadName o.state = "worker".toList := by
  refine ⟨by decide, by decide, fun fuel w => rfl, rfl, by decide, by decide, by decide, ?_⟩
  refine ⟨{ state := { running with m_ThreadStatus := THREAD_STOP,
                                    m_ThreadControl := THREAD_STOP,
                                    m_ThreadAttribute := AttrState.destroyed,
                                    m_ThreadHandle := 0 },
            trace := [Event.usleep 100000, Event.attrDestroy] },
    fun fuel => rfl, rfl, rfl, rfl, by decide, by decide, rfl⟩

/-- C15: the binary-count invariant.  Take a sequence of `Lock()` and `UnLock()`
calls on a fresh `Semaphore` that all complete and in which no prefix holds
more `UnLock()` than `Lock()` calls.  After every call of the sequence (after
every prefix) the count is 0 or 1, and it is 0 exactly when the prefix holds
one more `Lock()` than `UnLock()`. -/
theorem Semaphore_binary_count (ops : List SemOp)
    (hpre : ∀ p ∈ ops.inits, unlockCount p ≤ lockCount p)
    (hdone : (Semaphore.runOps Semaphore.new ops).isSome = true) :
    ∀ p ∈ ops.inits, ∃ t : Semaphore,
      Semaphore.runOps Semaphore.new p = some t ∧
      (t.m_handle = 0 ∨ t.m_handle = 1) ∧
      (t.m_handle = 0 ↔ lockCount p = unlockCount p + 1) ∧
      (t.m_handle = 1 ↔ lockCount p = unlockCount p) := by
  intro p hp
  have hle := hpre p hp
  obtain ⟨q, rfl⟩ := (List.mem_inits p ops).mp hp
  rw [runOps_append] at hdone
  cases hrun : Semaphore.runOps Semaphore.new p with
  | none =>
    rw [hrun] at hdone
    cases hdone
  | some t =>
    have hnew : Semaphore.new.m_handle = 1 := rfl
    have hmax : SEM_VALUE_MAX = 2147483647 := rfl
    have hcount := runOps_count p Semaphore.new t (fun p1 hp1 => by
      have hle1 := hpre p1 ((List.mem_inits p1 (p ++ q)).mpr
        (hp1.trans (List.prefix_append p q)))
      rw [hnew, hmax]
      omega) hrun
    rw [hnew] at hcount
    exact ⟨t, rfl, by omega, by omega, by omega⟩

theorem Semaphore_binary_count_witness :
    (∀ p ∈ [SemOp.lock, SemOp.unlock, SemOp.lock].inits, unlockCount p ≤ lockCount p) ∧
    (Semaphore.runOps Semaphore.new [SemOp.lock, SemOp.unlock, SemOp.lock]).isSome = true ∧
    ∀ p ∈ [SemOp.lock, SemOp.unlock, SemOp.lock].inits, ∃ t : Semaphore,
      Semaphore.runOps Semaphore.new p = some t ∧
      (t.m_handle = 0 ∨ t.m_handle = 1) ∧
      (t.m_handle = 0 ↔ lockCount p = unlockCount p + 1) ∧
      (t.m_handle = 1 ↔ lockCount p = unlockCount p) :=
  ⟨by decide, by decide,
    Semaphore_binary_count [SemOp.lock, SemOp.unlock, SemOp.lock] (by decide) (by decide)⟩

/-- C16: the worker loop treats `THREAD_PAUSE` like `THREAD_RUN`.  In every state
whose control flag is not `THREAD_STOP` a loop check of `Run` is followed by
the status being set to `THREAD_RUN` and by an invocation of `OnRun`.  So on
an instance with status `THREAD_RUN`, `Pause()` followed by one loop check of
the worker gives control `THREAD_PAUSE` and status `THREAD_RUN`, and a
`Resume()` after that changes nothing: control stays `THREAD_PAUSE`. -/
theorem Run_undoes_Pause (s : State) (env : Nat → State → State) (fuel : Nat) :
    (s.m_ThreadControl ≠ THREAD_STOP →
      RunCheck s = runEnter s ∧
      (RunCheck s).m_ThreadStatus = THREAD_RUN ∧
      Run (fuel + 1) env s = RunLoop env fuel 1 (env 0 (runEnter s)) [runEnter s]) ∧
    (s.m_ThreadStatus = THREAD_RUN →
      (RunCheck (Pause s)).m_ThreadControl = THREAD_PAUSE ∧
      (RunCheck (Pause s)).m_ThreadStatus = THREAD_RUN ∧
      Resume (RunCheck (Pause s)) = RunCheck (Pause s) ∧
      (Resume (RunCheck (Pause s))).m_ThreadControl = THREAD_PAUSE ∧
      (Resume (RunCheck (Pause s))).m_ThreadControl ≠ THREAD_RUN) := by
  refine ⟨?_, ?_⟩
  · intro hc
    have h1 : RunCheck s = runEnter s := by
      unfold RunCheck
      rw [if_pos hc]
      rfl
    refine ⟨h1, by rw [h1]; rfl, ?_⟩
    unfold Run
    rw [RunLoop, if_pos hc]
    rfl
  · intro hrun
    have hp : Pause s = { s with m_ThreadControl := THREAD_PAUSE,
                                 m_ThreadStatus := THREAD_PAUSE } := by
      unfold Pause
      rw [if_pos hrun]
    have hr : RunCheck (Pause s) = { s with m_ThreadControl := THREAD_PAUSE,
                                            m_ThreadStatus := THREAD_RUN } := by
      rw [hp]
      simp [RunCheck, THREAD_PAUSE, THREAD_STOP, THREAD_RUN]
    have hres : Resume { s with m_ThreadControl := THREAD_PAUSE,
                                m_ThreadStatus := THREAD_RUN } =
        { s with m_ThreadControl := THREAD_PAUSE, m_ThreadStatus := THREAD_RUN } := by
      simp [Resume, THREAD_PAUSE, THREAD_RUN]
    have hpr : THREAD_PAUSE ≠ THREAD_RUN := by decide
    rw [hr, hres]
    exact ⟨rfl, rfl, rfl, rfl, hpr⟩

theorem Run_undoes_Pause_witness :
    (RunCheck justStarted = runEnter justStarted ∧
      (RunCheck justStarted).m_ThreadStatus = THREAD_RUN ∧
      Run (2 + 1) stopDuringSecondCall justStarted =
        RunLoop stopDuringSecondCall 2 1 (stopDuringSecondCall 0 (runEnter justStarted))
          [runEnter justStarted]) ∧
    ((RunCheck (Pause running)).m_ThreadControl = THREAD_PAUSE ∧
      (RunCheck (Pause running)).m_ThreadStatus = THREAD_RUN ∧
      Resume (RunCheck (Pause running)) = RunCheck (Pause running) ∧
      (Resume (RunCheck (Pause running))).m_ThreadControl = THREAD_PAUSE ∧
      (Resume (RunCheck (Pause running))).m_ThreadControl ≠ THREAD_RUN) :=
  ⟨(Run_undoes_Pause justStarted stopDuringSecondCall 2).1 (by decide),
   (Run_undoes_Pause running stopDuringSecondCall 0).2 rfl⟩

/-- C18: `ThreadSleep` never asks for more than it was given and keeps whole
seconds only from one second up.  For `ms < 1000` it calls `usleep(ms * 1000)`
with the exact product, which is below `10^6` and so untouched by the 32-bit
reduction; for `ms >= 1000` it calls `sleep(ms / 1000)`, that is
`ms - ms mod 1000` milliseconds, up to 999 ms short (`1999` gives one
second).  The intervals of the two polling loops are slept exactly:
`ThreadSleep(100)` in `Stop` is `usleep(100000)` and `ThreadSleep(30)` in
`WaitThreadReady` is `usleep(30000)`. -/
theorem ThreadSleep_spec (ms : Nat) :
    sleepMicros (ThreadSleep ms) ≤ ms * 1000 ∧
    (ms < 1000 →
      ThreadSleep ms = [Event.usleep (ms * 1000)] ∧ ms * 1000 < 1000000 ∧
      wrapUInt32 (ms * 1000) = ms * 1000 ∧
      sleepMicros (ThreadSleep ms) = ms * 1000) ∧
    (1000 ≤ ms →
      ThreadSleep ms = [Event.sleep (ms / 1000)] ∧
      ms / 1000 * 1000 = ms - ms % 1000 ∧
      ms - ms / 1000 * 1000 ≤ 999 ∧
      sleepMicros (ThreadSleep ms) = (ms - ms % 1000) * 1000) ∧
    ThreadSleep 1999 = [Event.sleep 1] ∧
    ThreadSleep 100 = [Event.usleep 100000] ∧
    ThreadSleep 30 = [Event.usleep 30000] ∧
    sleepMicros (ThreadSleep 100) = 100 * 1000 ∧
    sleepMicros (ThreadSleep 30) = 30 * 1000 ∧
    (∀ (w : Worker) (f k : Nat) (s : State) (T : Int) (tr : List Event),
      s.m_ThreadStatus ≠ THREAD_STOP → 0 < T →
      StopLoop w (f + 1) k s T tr =
        StopLoop w f (k + 1) (duringSleep w k { s with m_ThreadControl := THREAD_STOP })
          (subInt32 T 100) (tr ++ [Event.usleep 100000])) ∧
    (∀ (w : Worker) (f k : Nat) (s : State) (tr : List Event),
      s.m_ThreadStatus ≠ THREAD_RUN →
      WaitLoop w (f + 1) k s 0 tr =
        WaitLoop w f (k + 1) (duringSleep w k s) 0 (tr ++ [Event.usleep 30000])) := by
  have hsmall : ms < 1000 → ThreadSleep ms = [Event.usleep (ms * 1000)] := by
    intro h
    unfold ThreadSleep wrapUInt32
    rw [if_neg (by omega), Nat.mod_eq_of_lt (by omega)]
  have hbig : 1000 ≤ ms → ThreadSleep ms = [Event.sleep (ms / 1000)] := by
    intro h
    unfold ThreadSleep
    rw [if_pos h]
  refine ⟨?_, ?_, ?_, by decide, by decide, by decide, by decide, by decide, ?_, ?_⟩
  · by_cases h : ms < 1000
    · rw [hsmall h]
      simp [sleepMicros]
    · rw [hbig (by omega)]
      simp only [sleepMicros]
      omega
  · intro h
    refine ⟨hsmall h, by omega, ?_, ?_⟩
    · unfold wrapUInt32
      exact Nat.mod_eq_of_lt (by omega)
    · rw [hsmall h]
      simp [sleepMicros]
  · intro h
    refine ⟨hbig h, by omega, by omega, ?_⟩
    rw [hbig h]
    simp only [sleepMicros]
    omega
  · intro w f k s T tr hs hT
    rw [StopLoop, if_pos hs, if_neg (by omega), ThreadSleep_100]
  · intro w f k s tr hs
    rw [WaitLoop, if_pos hs, if_pos rfl, ThreadSleep_30]

theorem ThreadSleep_spec_witness :
    (ThreadSleep 999 = [Event.usleep (999 * 1000)] ∧ 999 * 1000 < 1000000 ∧
      wrapUInt32 (999 * 1000) = 999 * 1000 ∧
      sleepMicros (ThreadSleep 999) = 999 * 1000) ∧
    (ThreadSleep 2500 = [Event.sleep (2500 / 1000)] ∧
      2500 / 1000 * 1000 = 2500 - 2500 % 1000 ∧
      2500 - 2500 / 1000 * 1000 ≤ 999 ∧
      sleepMicros (ThreadSleep 2500) = (2500 - 2500 % 1000) * 1000) :=
  ⟨(ThreadSleep_spec 999).2.1 (by decide), (ThreadSleep_spec 2500).2.2.1 (by decide)⟩

end ThreadBase
